import Mathlib

/-!
Shallow embedding of the ETL ingestion pipeline of `src/etl/ingest.py`
(repository what-to-read-next) and proofs about its specification.

The pipeline streams tab-separated dump lines, decodes the fifth field as
JSON, applies a quality gate, derives an embedding text, batches records,
encodes each batch once, and inserts each batch into a store with a
skip-on-conflict policy keyed by `ol_key`.

Modelling conventions:
* JSON values are an inductive `Json`; the external library decoder
  `json.loads` is an abstract parameter `jd : String -> Option JObj`
  restricted to object payloads (the dump format always carries objects).
* Python truthiness, `len`, `str`, `strip` and `split` are embedded by
  `truthy`, `pyLen`, `pyStr`, `pyStrip`, `pySplitTabMax`.  Where Python
  would raise a `TypeError` on a field of unexpected runtime type (never
  exercised by the dump format or by any claim) the embedding totalizes
  via `pyStr` or a neutral value; each such spot is noted.
* The sentence-transformer encoder is an abstract parameter
  `enc : List String -> List Vec`; vectors are opaque `List Int`.
* The store is write-only for the loop (the code never reads it), so the
  run produces a trace of encoder/write events, and the store contents
  are obtained by folding the write events over an initial store with the
  ON CONFLICT (ol_key) DO NOTHING semantics of the insert statement.
* Failures of an in-flight batch (encode or write raising) are an oracle
  `orc : Nat -> FlushOutcome` indexed by the flush attempt number; a
  failing write persists nothing (the store write is taken as atomic, per
  the store contract `upsertBatch`).
* A fatal error raised by the line iterator itself is an input item
  `Item.ioFail`; it reaches the outer `except` clause, which calls
  `sys.exit(1)` before the summary lines run, while the `finally` clause
  closes the connection on both paths.
-/

/-- JSON values as decoded by the external JSON library. -/
inductive Json where
  | null : Json
  | bool (b : Bool) : Json
  | num (n : Int) : Json
  | str (s : String) : Json
  | arr (xs : List Json) : Json
  | obj (fs : List (String × Json)) : Json

/-- A decoded JSON object: the field list of a Python dict. -/
abbrev JObj := List (String × Json)

/-- Python `d.get(k)`: first binding of the key, if any. -/
def objGet (fs : JObj) (k : String) : Option Json :=
  (fs.find? (fun p => p.1 = k)).map (fun p => p.2)

/-- Python `d.get(k, default)`. -/
def objGetD (fs : JObj) (k : String) (d : Json) : Json :=
  (objGet fs k).getD d

/-- Python truthiness of a JSON value. -/
def truthy : Json → Bool
  | Json.null => false
  | Json.bool b => b
  | Json.num n => n ≠ 0
  | Json.str s => s ≠ ""
  | Json.arr xs => !xs.isEmpty
  | Json.obj fs => !fs.isEmpty

/-- Python `len` on a JSON value (0 where Python would raise `TypeError`;
no such value reaches a `len` call on the dump format). -/
def pyLen : Json → Nat
  | Json.str s => s.length
  | Json.arr xs => xs.length
  | Json.obj fs => fs.length
  | _ => 0

/-- Python `str` of a JSON value (empty for containers, which `str` would
render structurally; containers never reach a `str` call whose exact text
matters to a claim). -/
def pyStr : Json → String
  | Json.null => "None"
  | Json.bool true => "True"
  | Json.bool false => "False"
  | Json.num n => toString n
  | Json.str s => s
  | Json.arr _ => ""
  | Json.obj _ => ""

/-- Python `s.startswith(p)`, computed structurally on the character
lists. -/
def pyStartsWith (s p : String) : Bool :=
  p.toList.isPrefixOf s.toList

/-- Accumulator pass of a decimal literal. -/
def natOfDigitsAux : List Char → Nat → Option Nat
  | [], acc => some acc
  | c :: cs, acc =>
    if c.isDigit then natOfDigitsAux cs (acc * 10 + (c.toNat - 48))
    else none

/-- Python `int(s)` on a nonnegative decimal string: digits only,
nonempty, else failure. -/
def pyToNat (s : String) : Option Nat :=
  match s.toList with
  | [] => none
  | l => natOfDigitsAux l 0

/-- Python `int(s)` on an optionally negated decimal string (the shapes
that `str` of an int or a year string produce). -/
def pyToInt (s : String) : Option Int :=
  match s.toList with
  | [] => none
  | c :: rest =>
    if c = Char.ofNat 45 then
      match rest with
      | [] => none
      | l => (natOfDigitsAux l 0).map (fun n => -(n : Int))
    else (natOfDigitsAux (c :: rest) 0).map (fun n => (n : Int))

/-- The whitespace set of Python `str.strip()` (ASCII part). -/
def isPySpace (c : Char) : Bool :=
  c = ' ' || c = '\t' || c = '\n' || c = '\x0d' || c = '\x0b' || c = '\x0c'

/-- Python `s.strip()`: drop leading and trailing whitespace. -/
def pyStrip (s : String) : String :=
  String.mk (((s.toList.dropWhile isPySpace).reverse.dropWhile isPySpace).reverse)

/-- Helper for `pySplitTabMax`: split a character list at the first tab. -/
def breakTab : List Char → Option (List Char × List Char)
  | [] => none
  | c :: cs =>
    if c = '\t' then some ([], cs)
    else match breakTab cs with
      | none => none
      | some (a, b) => some (c :: a, b)

/-- Python `s.split(String.mk [Char.ofNat 9], m)`: split on tabs, at most
`m` splits, so at most `m + 1` parts; the final part keeps any remaining
tabs.  Like Python, an empty string yields one empty part. -/
def pySplitTabMax : Nat → List Char → List (List Char)
  | 0, cs => [cs]
  | m + 1, cs =>
    match breakTab cs with
    | none => [cs]
    | some (a, b) => a :: pySplitTabMax m b

/-- The five-way split `line.strip().split(tab, 4)` of `parse_dump_line`. -/
def splitDumpLine (line : String) : List String :=
  (pySplitTabMax 4 (pyStrip line).toList).map String.mk

/-- `is_quality_record` of src/etl/ingest.py, with the module constant
`MIN_SUBJECTS` passed explicitly.  Keeps records whose `subjects` value is
truthy of length at least `minSubjects`, whose `title` is truthy, and
whose `type` is the work marker, given as a bare string or as an object
whose `key` field equals it. -/
def is_quality_record (minSubjects : Nat) (work : JObj) : Bool :=
  let subjects := objGetD work "subjects" (Json.arr [])
  if !truthy subjects || pyLen subjects < minSubjects then false
  else if !truthy ((objGet work "title").getD Json.null) then false
  else match objGet work "type" with
    | some (Json.obj fs) =>
      match objGet fs "key" with
      | some (Json.str s) => s == "/type/work"
      | _ => false
    | some (Json.str s) => s == "/type/work"
    | _ => false

/-- One `authors` entry of `extract_authors`: a dict entry takes its
`author` field with default the empty dict; when that value is a dict, the
key is appended only when it is a string beginning with "/authors/"
(`author_key.startswith`); only when the `author` value is present and not
a dict does the flat branch `elif "key" in author_entry` run, appending the
raw `key` value.  Non-dict entries contribute nothing.  (A non-string key
in either branch would make Python raise or persist a non-string; the
embedding contributes nothing there, a shape no claim exercises.) -/
def authorsOfEntry (entry : Json) : List String :=
  match entry with
  | Json.obj fs =>
    match objGetD fs "author" (Json.obj []) with
    | Json.obj afs =>
      match objGetD afs "key" Json.null with
      | Json.str k => if pyStartsWith k "/authors/" then [k] else []
      | _ => []
    | _ =>
      match objGet fs "key" with
      | some (Json.str k) => [k]
      | _ => []
  | _ => []

/-- `extract_authors` of src/etl/ingest.py: fold `authorsOfEntry` over the
`authors` array (default empty; iterating a non-array dict value would in
Python either skip every element or raise; the embedding yields []). -/
def extract_authors (work : JObj) : List String :=
  match objGetD work "authors" (Json.arr []) with
  | Json.arr entries => entries.flatMap authorsOfEntry
  | _ => []

/-- Python `s.isdigit()` on ASCII content: nonempty and all digits. -/
def pyIsDigit (s : String) : Bool :=
  !s.toList.isEmpty && s.toList.all Char.isDigit

/-- `extract_publish_year` of src/etl/ingest.py: when
`first_publish_date` is a dict with a truthy `value`, take the first four
characters of `str(value)`; return its integer value when all digits, else
None.  Otherwise fall back to `first_publish_year` when it is an int or a
str (a JSON bool is a Python int whose `str` never parses, yielding None),
converting the first four characters of its `str` with failure as None. -/
def extract_publish_year (work : JObj) : Option Int :=
  let viaDate : Option (Option Int) :=
    match objGet work "first_publish_date" with
    | some (Json.obj fs) =>
      let value := objGetD fs "value" Json.null
      if truthy value then
        let yearStr := String.mk ((pyStr value).toList.take 4)
        some (if pyIsDigit yearStr then (pyToNat yearStr).map Int.ofNat else none)
      else none
    | _ => none
  match viaDate with
  | some r => r
  | none =>
    match objGet work "first_publish_year" with
    | some (Json.num n) => pyToInt (String.mk ((toString n).toList.take 4))
    | some (Json.str s) => pyToInt (String.mk (s.toList.take 4))
    | some (Json.bool _) => none
    | _ => none

/-- `parse_dump_line` of src/etl/ingest.py, with the JSON decoder as the
abstract parameter `jd` (object payloads; the decoder returning `none` is
the caught `JSONDecodeError`).  Splits the stripped line on tabs with at
most four splits; fewer than five parts yields None; otherwise decodes the
fifth part and backfills missing `type` and `key` from parts one and
two. -/
def parse_dump_line (jd : String → Option JObj) (line : String) : Option JObj :=
  let parts := splitDumpLine line
  if h5 : parts.length < 5 then none
  else
    match jd (parts.get ⟨4, by omega⟩) with
    | none => none
    | some work =>
      let work1 :=
        if (objGet work "type").isSome then work
        else work ++ [("type", Json.str (parts.get ⟨0, by omega⟩))]
      let work2 :=
        if (objGet work1 "key").isSome then work1
        else work1 ++ [("key", Json.str (parts.get ⟨1, by omega⟩))]
      some work2

/-- The string value of a field for row building: Python keeps the raw
value; the embedding renders it with `pyStr` (identity on strings, the
only shape the dump format produces for `key` and `title`), with the
dict-get default for an absent field. -/
def getFieldStr (work : JObj) (k : String) (d : String) : String :=
  match objGet work k with
  | some j => pyStr j
  | none => d

/-- The subjects list of a record as strings (`work.get("subjects", [])`;
non-string elements are rendered with `pyStr`, where Python would raise in
`join` or persist them raw). -/
def getSubjects (work : JObj) : List String :=
  match objGetD work "subjects" (Json.arr []) with
  | Json.arr xs => xs.map pyStr
  | _ => []

/-- `prepare_embedding_text` of src/etl/ingest.py: join the first 20
subjects with spaces, prepend the title and ". ", and strip. -/
def prepare_embedding_text (work : JObj) : String :=
  let title := getFieldStr work "title" ""
  let subjectsStr := String.intercalate " " ((getSubjects work).take 20)
  pyStrip (title ++ ". " ++ subjectsStr)

/-- The batch record built at lines 238-245 of src/etl/ingest.py. -/
structure Rec where
  ol_key : String
  title : String
  authors : List String
  subjects : List String
  year : Option Int
  search_content : String
deriving DecidableEq, Repr

/-- An embedding vector, opaque to the pipeline (the encoder is an
external collaborator). -/
abbrev Vec := List Int

/-- A data tuple of the insert statement: record fields plus vector. -/
structure PRow where
  ol_key : String
  title : String
  authors : List String
  year : Option Int
  subjects : List String
  search_content : String
  embedding : Vec
deriving DecidableEq, Repr

/-- Pair one record with its vector by position. -/
def mkPRow (r : Rec) (v : Vec) : PRow :=
  { ol_key := r.ol_key, title := r.title, authors := r.authors,
    year := r.year, subjects := r.subjects,
    search_content := r.search_content, embedding := v }

/-- The `zip(batch_records, embeddings)` pairing of the data tuples. -/
def zipRows (recs : List Rec) (vecs : List Vec) : List PRow :=
  List.zipWith mkPRow recs vecs

/-- Extract-data step of the loop body (lines 230-245). -/
def buildRec (work : JObj) : Rec :=
  { ol_key := getFieldStr work "key" "",
    title := getFieldStr work "title" "",
    authors := extract_authors work,
    subjects := getSubjects work,
    year := extract_publish_year work,
    search_content := prepare_embedding_text work }

/-- Observable external calls of a run: one completed encoder invocation
per flushed batch, and one store write per flushed batch. -/
inductive Ev where
  | encode (n : Nat) : Ev
  | write (rows : List PRow) : Ev
deriving DecidableEq, Repr

/-- Outcome oracle for a flush attempt: the encode call raises, the write
call raises, or both complete. -/
inductive FlushOutcome where
  | ok : FlushOutcome
  | encodeFail : FlushOutcome
  | writeFail : FlushOutcome
deriving DecidableEq, Repr

/-- The module-level configuration constants the loop reads. -/
structure Config where
  batchSize : Nat
  minSubjects : Nat
  maxRecords : Nat
deriving Repr

/-- One item of the line iterator: a text line, or the iterator itself
raising (a fatal error of the main read loop, e.g. a stream error). -/
inductive Item where
  | line (s : String) : Item
  | ioFail : Item
deriving Repr

/-- The mutable loop state of `main`: the four counters, the flush
attempt count (index into the failure oracle), the current batch, and the
event trace so far. -/
structure LoopState where
  processed : Nat
  inserted : Nat
  skipped : Nat
  errors : Nat
  flushes : Nat
  batchRecords : List Rec
  batchTexts : List String
  events : List Ev
deriving DecidableEq, Repr

/-- The state at loop entry (lines 195-207). -/
def initState : LoopState :=
  { processed := 0, inserted := 0, skipped := 0, errors := 0, flushes := 0,
    batchRecords := [], batchTexts := [], events := [] }

/-- The cap test `MAX_RECORDS > 0 and records_inserted >= MAX_RECORDS`. -/
def capReached (cfg : Config) (st : LoopState) : Bool :=
  decide (0 < cfg.maxRecords) && decide (cfg.maxRecords ≤ st.inserted)

/-- Loop control after a statement: keep iterating or break. -/
inductive Ctl where
  | cont : Ctl
  | brk : Ctl
deriving DecidableEq, Repr

/-- The full-batch flush of the loop body (lines 249-312).  On success:
encode once, write once, add the batch size to `inserted`; if the cap is
now reached, break immediately (line 296) WITHOUT resetting the batch;
otherwise reset the batch, sleep, and re-test the cap (line 311).  On an
encode or write error: add the batch size to `errors`, leave `inserted`
unchanged, reset the batch, and re-test the cap.  A raising encode call
emits no completed-encode event; a raising write call emits no write
event (the store write is atomic per the store contract). -/
def flushFull (cfg : Config) (enc : List String → List Vec)
    (orc : Nat → FlushOutcome) (st : LoopState) : LoopState × Ctl :=
  match orc st.flushes with
  | FlushOutcome.ok =>
    let rows := zipRows st.batchRecords (enc st.batchTexts)
    let st1 := { st with
      events := st.events ++ [Ev.encode st.batchTexts.length, Ev.write rows],
      inserted := st.inserted + st.batchRecords.length,
      flushes := st.flushes + 1 }
    if capReached cfg st1 then (st1, Ctl.brk)
    else
      let st2 := { st1 with batchRecords := [], batchTexts := [] }
      if capReached cfg st2 then (st2, Ctl.brk) else (st2, Ctl.cont)
  | FlushOutcome.encodeFail =>
    let st1 := { st with
      errors := st.errors + st.batchRecords.length,
      flushes := st.flushes + 1, batchRecords := [], batchTexts := [] }
    if capReached cfg st1 then (st1, Ctl.brk) else (st1, Ctl.cont)
  | FlushOutcome.writeFail =>
    let st1 := { st with
      events := st.events ++ [Ev.encode st.batchTexts.length],
      errors := st.errors + st.batchRecords.length,
      flushes := st.flushes + 1, batchRecords := [], batchTexts := [] }
    if capReached cfg st1 then (st1, Ctl.brk) else (st1, Ctl.cont)

/-- The observable result of a run of `main`: the summary counters, the
external event trace, whether the run aborted fatally, whether the store
connection was closed (the `finally` clause), whether the final summary
lines ran, and the process exit code. -/
structure RunResult where
  processed : Nat
  inserted : Nat
  skipped : Nat
  errors : Nat
  events : List Ev
  fatal : Bool
  connClosed : Bool
  summaryEmitted : Bool
  exitCode : Nat
deriving DecidableEq, Repr

/-- Normal completion: remainder flush (lines 315-345) when the batch is
nonempty, then the `finally` close and the summary lines (356-360). -/
def finishRun (enc : List String → List Vec)
    (orc : Nat → FlushOutcome) (st : LoopState) : RunResult :=
  let st1 :=
    if st.batchRecords.isEmpty then st
    else match orc st.flushes with
      | FlushOutcome.ok =>
        let rows := zipRows st.batchRecords (enc st.batchTexts)
        { st with
          events := st.events ++ [Ev.encode st.batchTexts.length, Ev.write rows],
          inserted := st.inserted + st.batchRecords.length,
          flushes := st.flushes + 1 }
      | FlushOutcome.encodeFail =>
        { st with
          errors := st.errors + st.batchRecords.length,
          flushes := st.flushes + 1 }
      | FlushOutcome.writeFail =>
        { st with
          events := st.events ++ [Ev.encode st.batchTexts.length],
          errors := st.errors + st.batchRecords.length,
          flushes := st.flushes + 1 }
  { processed := st1.processed, inserted := st1.inserted,
    skipped := st1.skipped, errors := st1.errors, events := st1.events,
    fatal := false, connClosed := true, summaryEmitted := true,
    exitCode := 0 }

/-- Fatal abort of the main read loop (lines 349-353): the `except`
clause calls `sys.exit(1)`, the `finally` clause closes the connection,
and the summary lines (356-360) never run. -/
def fatalResult (st : LoopState) : RunResult :=
  { processed := st.processed, inserted := st.inserted,
    skipped := st.skipped, errors := st.errors, events := st.events,
    fatal := true, connClosed := true, summaryEmitted := false,
    exitCode := 1 }

/-- The main read loop (lines 209-312) over the remaining input items.
Per line: parse (a malformed line is dropped with no counter change),
count `processed`, test the cap (line 220), apply the quality gate, build
the record, append it to the batch, and flush when the batch reaches the
configured size.  Any break of the loop falls through to the
remainder-flush/summary epilogue `finishRun`. -/
def runLoop (cfg : Config) (jd : String → Option JObj)
    (enc : List String → List Vec) (orc : Nat → FlushOutcome) :
    List Item → LoopState → RunResult
  | [], st => finishRun enc orc st
  | Item.ioFail :: _, st => fatalResult st
  | Item.line l :: rest, st =>
    match parse_dump_line jd l with
    | none => runLoop cfg jd enc orc rest st
    | some work =>
      let st1 := { st with processed := st.processed + 1 }
      if capReached cfg st1 then finishRun enc orc st1
      else if !is_quality_record cfg.minSubjects work then
        runLoop cfg jd enc orc rest { st1 with skipped := st1.skipped + 1 }
      else
        let r := buildRec work
        let st2 := { st1 with
          batchRecords := st1.batchRecords ++ [r],
          batchTexts := st1.batchTexts ++ [r.search_content] }
        if cfg.batchSize ≤ st2.batchRecords.length then
          match flushFull cfg enc orc st2 with
          | (st3, Ctl.brk) => finishRun enc orc st3
          | (st3, Ctl.cont) => runLoop cfg jd enc orc rest st3
        else runLoop cfg jd enc orc rest st2

/-- A whole run of `main` from the initial state. -/
def run (cfg : Config) (jd : String → Option JObj)
    (enc : List String → List Vec) (orc : Nat → FlushOutcome)
    (input : List Item) : RunResult :=
  runLoop cfg jd enc orc input initState

/-- The books table: rows in insertion order. -/
abbrev Store := List PRow

/-- Does a row with this natural key exist. -/
def hasKey (s : Store) (k : String) : Bool :=
  s.any (fun r => r.ol_key == k)

/-- One row of the insert statement with
ON CONFLICT (ol_key) DO NOTHING: an existing key leaves the store
unchanged, a new key appends the row. -/
def insertRow (s : Store) (r : PRow) : Store :=
  if hasKey s r.ol_key then s else s ++ [r]

/-- `executemany` over the data tuples: rows inserted in order, each with
the conflict policy (so a duplicate key later in the same batch is also
skipped). -/
def insertRows : Store → List PRow → Store
  | s, [] => s
  | s, r :: rs => insertRows (insertRow s r) rs

/-- Effect of one event on the store: only writes touch it. -/
def applyEv (s : Store) (e : Ev) : Store :=
  match e with
  | Ev.write rows => insertRows s rows
  | Ev.encode _ => s

/-- Effect of a whole event trace on the store. -/
def applyEvents : Store → List Ev → Store
  | s, [] => s
  | s, e :: es => applyEvents (applyEv s e) es

/-- The store contents after a run starting from store `s`. -/
def runStore (cfg : Config) (jd : String → Option JObj)
    (enc : List String → List Vec) (orc : Nat → FlushOutcome)
    (input : List Item) (s : Store) : Store :=
  applyEvents s (run cfg jd enc orc input).events

/-- All rows a trace attempts to write, in order. -/
def writesOf : List Ev → List PRow
  | [] => []
  | Ev.write rows :: es => rows ++ writesOf es
  | Ev.encode _ :: es => writesOf es

/-- The sizes of the completed encoder invocations of a trace, in order. -/
def encodeSizes : List Ev → List Nat
  | [] => []
  | Ev.encode n :: es => n :: encodeSizes es
  | Ev.write _ :: es => encodeSizes es

/-- The sizes of the store write invocations of a trace, in order. -/
def writeSizes : List Ev → List Nat
  | [] => []
  | Ev.write rows :: es => rows.length :: writeSizes es
  | Ev.encode _ :: es => writeSizes es

/-- The embedding-text formula as the specification words it:
trim(title + ". " + join(subjects[:20], " ")). -/
def embeddingTextSpec (work : JObj) : String :=
  pyStrip (getFieldStr work "title" "" ++ ". "
    ++ String.intercalate " " ((getSubjects work).take 20))

/-- Counter invariant of the loop: the text buffer tracks the record
buffer, and `inserted` equals the total size of the write invocations so
far. -/
def statsInv (st : LoopState) : Prop :=
  st.batchTexts.length = st.batchRecords.length ∧
  st.inserted = (writeSizes st.events).sum

/-- Exit-path contract of a run result: connection closed always; the
summary runs exactly on non-fatal completion; a fatal abort exits 1. -/
def exitInv (r : RunResult) : Prop :=
  r.connClosed = true ∧
  (r.fatal = false → r.summaryEmitted = true ∧ r.exitCode = 0) ∧
  (r.fatal = true → r.summaryEmitted = false ∧ r.exitCode = 1)

/-- A concrete decoder for scenario inputs: a payload that is a works key
decodes to a qualifying work object with three subjects; anything else is
invalid JSON. -/
def demoJd : String → Option JObj := fun s =>
  if pyStartsWith s "/works/" then
    some [("key", Json.str s), ("title", Json.str "T"),
          ("subjects", Json.arr [Json.str "a", Json.str "b", Json.str "c"]),
          ("type", Json.str "/type/work")]
  else none

/-- A well-formed five-field dump line for the key `k`. -/
def demoLine (k : String) : Item :=
  Item.line ("w\t" ++ k ++ "\t1\t2020\t" ++ k)

/-- A length-preserving scenario encoder. -/
def demoEnc : List String → List Vec := fun ts => ts.map (fun _ => [1])

/-- The oracle of a run with no batch failures. -/
def orcOk : Nat → FlushOutcome := fun _ => FlushOutcome.ok

/-- The oracle of a run whose every write call raises. -/
def orcWriteFail : Nat → FlushOutcome := fun _ => FlushOutcome.writeFail

/-- An input of `n` qualifying records with distinct natural keys. -/
def demoInput (n : Nat) : List Item :=
  ((List.range n).map (fun i => "/works/OL" ++ toString (i + 1) ++ "W")).map
    demoLine

/-- Two lines carrying the same natural key. -/
def dupInput : List Item := [demoLine "/works/OL1W", demoLine "/works/OL1W"]

/-- One good line, then the line iterator raises. -/
def fatalInput : List Item := [demoLine "/works/OL1W", Item.ioFail]

/-- A concrete validated record for witness states. -/
def demoRec (k : String) : Rec :=
  { ol_key := k, title := "T", authors := [], subjects := ["a", "b", "c"],
    year := none, search_content := "T. a b c" }

/-- A concrete persisted row. -/
def demoRow : PRow := mkPRow (demoRec "/works/OL1W") [1]

/-- A row with the same natural key as `demoRow` but a different title. -/
def demoRow2 : PRow :=
  { demoRow with title := "Different", embedding := [2] }

/-- A loop state holding a full batch of two records, no insertions yet. -/
def demoCapState : LoopState :=
  { processed := 2, inserted := 0, skipped := 0, errors := 0, flushes := 0,
    batchRecords := [demoRec "/works/OL1W", demoRec "/works/OL2W"],
    batchTexts := ["T. a b c", "T. a b c"], events := [] }

/-! ## Store lemmas: skip-on-conflict insertion -/

theorem insertRows_append (a b : List PRow) (s : Store) :
    insertRows s (a ++ b) = insertRows (insertRows s a) b := by
  induction a generalizing s with
  | nil => simp [insertRows]
  | cons r rs ih => simp [insertRows, ih]

theorem applyEvents_eq_insertRows (evs : List Ev) (s : Store) :
    applyEvents s evs = insertRows s (writesOf evs) := by
  induction evs generalizing s with
  | nil => simp [applyEvents, writesOf, insertRows]
  | cons e es ih =>
    cases e with
    | encode n => simp [applyEvents, applyEv, writesOf, ih]
    | write rows => simp [applyEvents, applyEv, writesOf, ih, insertRows_append]

theorem hasKey_insertRow (s : Store) (r : PRow) (k : String)
    (h : hasKey s k = true) : hasKey (insertRow s r) k = true := by
  unfold insertRow
  split
  · exact h
  · simp only [hasKey, List.any_append] at *
    simp [h]

theorem hasKey_insertRow_self (s : Store) (r : PRow) :
    hasKey (insertRow s r) r.ol_key = true := by
  unfold insertRow
  split
  · assumption
  · simp [hasKey, List.any_append]

theorem insertRow_hasKey (s : Store) (r : PRow)
    (h : hasKey s r.ol_key = true) : insertRow s r = s := by
  simp [insertRow, h]

theorem hasKey_insertRows (rs : List PRow) (s : Store) (k : String)
    (h : hasKey s k = true) : hasKey (insertRows s rs) k = true := by
  induction rs generalizing s with
  | nil => exact h
  | cons r rest ih => exact ih _ (hasKey_insertRow s r k h)

theorem hasKey_insertRows_mem (rs : List PRow) (s : Store) (r : PRow)
    (h : r ∈ rs) : hasKey (insertRows s rs) r.ol_key = true := by
  induction rs generalizing s with
  | nil => cases h
  | cons a rest ih =>
    rcases List.mem_cons.mp h with h1 | h1
    · rw [h1]
      exact hasKey_insertRows rest _ _ (hasKey_insertRow_self s a)
    · exact ih _ h1

theorem insertRows_stable (rs : List PRow) (s : Store)
    (h : ∀ r ∈ rs, hasKey s r.ol_key = true) : insertRows s rs = s := by
  induction rs with
  | nil => rfl
  | cons r rest ih =>
    have hr : insertRow s r = s := insertRow_hasKey s r (h r (by simp))
    simp only [insertRows, hr]
    exact ih (fun x hx => h x (by simp [hx]))

theorem insertRows_idem (rs : List PRow) (s : Store) :
    insertRows (insertRows s rs) rs = insertRows s rs :=
  insertRows_stable rs _ (fun r hr => hasKey_insertRows_mem rs s r hr)

theorem insertRow_length_le (s : Store) (r : PRow) :
    (insertRow s r).length ≤ s.length + 1 := by
  unfold insertRow
  split
  · omega
  · simp

theorem insertRows_length_le (rs : List PRow) (s : Store) :
    (insertRows s rs).length ≤ s.length + rs.length := by
  induction rs generalizing s with
  | nil => simp [insertRows]
  | cons r rest ih =>
    calc (insertRows (insertRow s r) rest).length
        ≤ (insertRow s r).length + rest.length := ih _
      _ ≤ s.length + 1 + rest.length := by
          have := insertRow_length_le s r
          omega
      _ = s.length + (r :: rest).length := by simp; omega

/-- C1.  Idempotent, append-only persistence: for every configuration,
decoder, encoder, failure oracle and input, running the pipeline a second
time over the store produced by a first run from the empty store leaves
the store exactly as after the first run; and inserting a row whose
natural key already exists in a store changes nothing (in particular no
field of the existing row). -/
theorem ingest_idempotent_and_no_overwrite (cfg : Config)
    (jd : String → Option JObj) (enc : List String → List Vec)
    (orc : Nat → FlushOutcome) (input : List Item) (s : Store) (r : PRow)
    (h : hasKey s r.ol_key = true) :
    runStore cfg jd enc orc input (runStore cfg jd enc orc input []) =
      runStore cfg jd enc orc input [] ∧
    insertRow s r = s := by
  refine ⟨?_, insertRow_hasKey s r h⟩
  unfold runStore
  rw [applyEvents_eq_insertRows, applyEvents_eq_insertRows]
  exact insertRows_idem _ _

theorem ingest_idempotent_and_no_overwrite_witness :
    runStore ⟨2, 3, 0⟩ demoJd demoEnc orcOk (demoInput 3)
        (runStore ⟨2, 3, 0⟩ demoJd demoEnc orcOk (demoInput 3) []) =
      runStore ⟨2, 3, 0⟩ demoJd demoEnc orcOk (demoInput 3) [] ∧
    insertRow [demoRow] demoRow2 = [demoRow] :=
  ingest_idempotent_and_no_overwrite ⟨2, 3, 0⟩ demoJd demoEnc orcOk
    (demoInput 3) [demoRow] demoRow2 (by decide)

/-- C2.  Cap semantics: with max-inserted cap 5, batch size 3, an
initially-empty store and 8 qualifying records, exactly 6 rows end up in
the store (the run stops at the first batch boundary at or past the cap)
and at least 6 records are reported as processed. -/
theorem cap_scenario_store_exactly_six :
    (runStore ⟨3, 3, 5⟩ demoJd demoEnc orcOk (demoInput 8) []).length = 6 ∧
    6 ≤ (run ⟨3, 3, 5⟩ demoJd demoEnc orcOk (demoInput 8)).processed := by
  constructor
  · rfl
  · decide

/-- C9.  Batch segmentation: 5 qualifying records with batch size 2 and
no cap perform exactly 3 encoder invocations and 3 write invocations of
sizes 2, 2, 1 in that order (one encoder call per batch, with the
non-empty remainder flushed at end of stream). -/
theorem five_records_batch_two_sizes :
    encodeSizes (run ⟨2, 3, 0⟩ demoJd demoEnc orcOk (demoInput 5)).events
      = [2, 2, 1] ∧
    writeSizes (run ⟨2, 3, 0⟩ demoJd demoEnc orcOk (demoInput 5)).events
      = [2, 2, 1] := by
  exact ⟨rfl, rfl⟩

/-! ## Trace accounting lemmas -/

theorem writeSizes_append (a b : List Ev) :
    writeSizes (a ++ b) = writeSizes a ++ writeSizes b := by
  induction a with
  | nil => rfl
  | cons e es ih => cases e <;> simp [writeSizes, ih]

theorem zipRows_length (recs : List Rec) (vecs : List Vec) :
    (zipRows recs vecs).length = min recs.length vecs.length := by
  simp [zipRows]

theorem finishRun_statsInv (enc : List String → List Vec)
    (orc : Nat → FlushOutcome) (st : LoopState)
    (henc : ∀ ts, (enc ts).length = ts.length) (h : statsInv st) :
    (finishRun enc orc st).inserted =
      (writeSizes (finishRun enc orc st).events).sum := by
  obtain ⟨hlen, hins⟩ := h
  unfold finishRun
  by_cases hb : st.batchRecords.isEmpty
  · simp [hb, hins]
  · cases horc : orc st.flushes <;>
      simp [hb, horc, writeSizes_append, writeSizes, hins, zipRows_length,
        henc, hlen]

theorem flushFull_statsInv (cfg : Config) (enc : List String → List Vec)
    (orc : Nat → FlushOutcome) (st : LoopState)
    (henc : ∀ ts, (enc ts).length = ts.length) (h : statsInv st) :
    statsInv (flushFull cfg enc orc st).1 := by
  obtain ⟨hlen, hins⟩ := h
  unfold flushFull statsInv
  cases horc : orc st.flushes <;>
    repeat' split <;>
    simp_all [writeSizes_append, writeSizes, zipRows_length, henc, hlen]

theorem runLoop_statsInv (cfg : Config) (jd : String → Option JObj)
    (enc : List String → List Vec) (orc : Nat → FlushOutcome)
    (henc : ∀ ts, (enc ts).length = ts.length) (items : List Item) :
    ∀ st : LoopState, statsInv st →
      (runLoop cfg jd enc orc items st).inserted =
        (writeSizes (runLoop cfg jd enc orc items st).events).sum := by
  induction items with
  | nil => exact fun st h => finishRun_statsInv enc orc st henc h
  | cons it rest ih =>
    intro st h
    cases it with
    | ioFail => simpa [runLoop, fatalResult] using h.2
    | line l =>
      rw [runLoop]
      cases hp : parse_dump_line jd l with
      | none => exact ih st h
      | some w =>
        simp only []
        split
        · exact finishRun_statsInv enc orc _ henc ⟨h.1, h.2⟩
        · split
          · exact ih _ ⟨h.1, h.2⟩
          · have h2 : statsInv { st with
                processed := st.processed + 1,
                batchRecords := st.batchRecords ++ [buildRec w],
                batchTexts :=
                  st.batchTexts ++ [(buildRec w).search_content] } := by
              constructor
              · simp [h.1]
              · exact h.2
            split
            · split
              · next heq =>
                  exact finishRun_statsInv enc orc _ henc
                    (by
                      have := flushFull_statsInv cfg enc orc _ henc h2
                      rw [heq] at this
                      exact this)
              · next heq =>
                  refine ih _ ?_
                  have := flushFull_statsInv cfg enc orc _ henc h2
                  rw [heq] at this
                  exact this
            · exact ih _ h2

/-- C3, counterexample.  Two input lines carrying the same natural key in
one batch: the run reports 2 as `inserted` while only 1 row was actually
added to the store, so the reported counter does not equal the number of
rows added by successful insertions and conflicted records are counted. -/
theorem inserted_counter_counts_conflicted_rows :
    (run ⟨2, 3, 0⟩ demoJd demoEnc orcOk dupInput).inserted = 2 ∧
    (runStore ⟨2, 3, 0⟩ demoJd demoEnc orcOk dupInput []).length = 1 := by
  exact ⟨rfl, rfl⟩

/-- C3, amended.  For every run with a length-preserving encoder, the
reported `inserted` counter equals the total size of the store write
invocations that succeeded: every record of a successfully written batch
is counted, including records whose key conflicted (which add no row) and
a batch re-written at a cap break, while errored batches, merely-seen
records and quality-skipped records are never counted; the cap compares
against this same counter. -/
theorem inserted_counter_eq_sum_of_written_batch_sizes (cfg : Config)
    (jd : String → Option JObj) (enc : List String → List Vec)
    (orc : Nat → FlushOutcome) (input : List Item)
    (henc : ∀ ts, (enc ts).length = ts.length) :
    (run cfg jd enc orc input).inserted =
      (writeSizes (run cfg jd enc orc input).events).sum :=
  runLoop_statsInv cfg jd enc orc henc input initState ⟨rfl, rfl⟩

theorem inserted_counter_eq_sum_of_written_batch_sizes_witness :
    (run ⟨3, 3, 5⟩ demoJd demoEnc orcOk (demoInput 8)).inserted =
      (writeSizes (run ⟨3, 3, 5⟩ demoJd demoEnc orcOk
        (demoInput 8)).events).sum :=
  inserted_counter_eq_sum_of_written_batch_sizes ⟨3, 3, 5⟩ demoJd demoEnc
    orcOk (demoInput 8) (fun ts => by simp [demoEnc])

/-- C4, counterexample.  A fatal error of the line iterator aborts the
run with exit code 1 and the final summary lines never run, refuting the
claim that a final summary is emitted on every termination path. -/
theorem no_summary_on_fatal_abort :
    (run ⟨2, 3, 0⟩ demoJd demoEnc orcOk fatalInput).fatal = true ∧
    (run ⟨2, 3, 0⟩ demoJd demoEnc orcOk fatalInput).summaryEmitted = false ∧
    (run ⟨2, 3, 0⟩ demoJd demoEnc orcOk fatalInput).exitCode = 1 := by
  exact ⟨rfl, rfl, rfl⟩

/-- The runLoop result always satisfies the exit-path contract. -/
theorem runLoop_exitInv (cfg : Config) (jd : String → Option JObj)
    (enc : List String → List Vec) (orc : Nat → FlushOutcome)
    (items : List Item) : ∀ st : LoopState,
    exitInv (runLoop cfg jd enc orc items st) := by
  induction items with
  | nil =>
    intro st
    refine ⟨rfl, fun _ => ⟨rfl, rfl⟩, fun hf => ?_⟩
    simp [runLoop, finishRun] at hf
  | cons it rest ih =>
    intro st
    cases it with
    | ioFail => exact ⟨rfl, fun hf => by simp [runLoop, fatalResult] at hf,
        fun _ => ⟨rfl, rfl⟩⟩
    | line l =>
      rw [runLoop]
      cases hp : parse_dump_line jd l with
      | none => exact ih st
      | some w =>
        simp only []
        split
        · exact ⟨rfl, fun _ => ⟨rfl, rfl⟩, fun hf => by simp [finishRun] at hf⟩
        · split
          · exact ih _
          · split
            · split
              · exact ⟨rfl, fun _ => ⟨rfl, rfl⟩,
                  fun hf => by simp [finishRun] at hf⟩
              · exact ih _
            · exact ih _

/-- C4, amended.  The store connection is closed on every exit path of
the main read loop; a run that completes without a fatal error emits the
final summary and exits 0; a fatal abort of the read loop exits 1 without
emitting the summary. -/
theorem conn_closed_always_summary_on_success (cfg : Config)
    (jd : String → Option JObj) (enc : List String → List Vec)
    (orc : Nat → FlushOutcome) (input : List Item) :
    (run cfg jd enc orc input).connClosed = true ∧
    ((run cfg jd enc orc input).fatal = false →
      (run cfg jd enc orc input).summaryEmitted = true ∧
      (run cfg jd enc orc input).exitCode = 0) ∧
    ((run cfg jd enc orc input).fatal = true →
      (run cfg jd enc orc input).summaryEmitted = false ∧
      (run cfg jd enc orc input).exitCode = 1) :=
  runLoop_exitInv cfg jd enc orc input initState

theorem conn_closed_always_summary_on_success_witness :
    (run ⟨2, 3, 0⟩ demoJd demoEnc orcOk (demoInput 2)).connClosed = true ∧
    (run ⟨2, 3, 0⟩ demoJd demoEnc orcOk (demoInput 2)).summaryEmitted
      = true :=
  ⟨(conn_closed_always_summary_on_success ⟨2, 3, 0⟩ demoJd demoEnc orcOk
      (demoInput 2)).1,
   ((conn_closed_always_summary_on_success ⟨2, 3, 0⟩ demoJd demoEnc orcOk
      (demoInput 2)).2.1 rfl).1⟩

/-- C5, counterexample.  One line with fewer than five tab-delimited
fields: the run result is identical to the run over the empty input, so
the malformed line is counted nowhere — `main` keeps no `unparsed`
counter (the line only reaches a debug log), and the summary reports
only processed/inserted/skipped/errors. -/
theorem malformed_line_changes_no_counter :
    run ⟨2, 3, 0⟩ demoJd demoEnc orcOk [Item.line "junk"] =
      run ⟨2, 3, 0⟩ demoJd demoEnc orcOk [] := by
  rfl

/-- C5, amended.  A line whose parse fails is dropped and the loop
continues with every counter and the batch unchanged; a stripped line
with fewer than five tab-delimited fields always fails to parse, and so
does a five-field line whose fifth field the JSON decoder rejects. -/
theorem malformed_line_dropped_loop_continues (cfg : Config)
    (jd : String → Option JObj) (enc : List String → List Vec)
    (orc : Nat → FlushOutcome) (l : String) (rest : List Item)
    (st : LoopState) :
    (parse_dump_line jd l = none →
      runLoop cfg jd enc orc (Item.line l :: rest) st =
        runLoop cfg jd enc orc rest st) ∧
    ((splitDumpLine l).length < 5 → parse_dump_line jd l = none) ∧
    (5 ≤ (splitDumpLine l).length →
      jd ((splitDumpLine l).getD 4 "") = none →
      parse_dump_line jd l = none) := by
  refine ⟨fun hp => ?_, fun h5 => ?_, fun h5 hjd => ?_⟩
  · rw [runLoop, hp]
  · simp [parse_dump_line, h5]
  · have h5n : ¬ (splitDumpLine l).length < 5 := by omega
    rw [parse_dump_line]
    simp only [h5n, dite_false]
    have hg : (splitDumpLine l).get ⟨4, by omega⟩ =
        (splitDumpLine l).getD 4 "" := by
      rw [List.getD_eq_getElem?_getD, List.getElem?_eq_getElem (by omega)]
      simp
    rw [hg, hjd]

theorem malformed_line_dropped_loop_continues_witness :
    runLoop ⟨2, 3, 0⟩ demoJd demoEnc orcOk [Item.line "junk"] initState =
      runLoop ⟨2, 3, 0⟩ demoJd demoEnc orcOk [] initState ∧
    parse_dump_line demoJd "junk" = none :=
  ⟨(malformed_line_dropped_loop_continues ⟨2, 3, 0⟩ demoJd demoEnc orcOk
      "junk" [] initState).1 (by rfl),
   (malformed_line_dropped_loop_continues ⟨2, 3, 0⟩ demoJd demoEnc orcOk
      "junk" [] initState).2.1 (by decide)⟩

theorem applyEvents_append (a b : List Ev) (s : Store) :
    applyEvents s (a ++ b) = applyEvents (applyEvents s a) b := by
  induction a generalizing s with
  | nil => simp [applyEvents]
  | cons e es ih => simp [applyEvents, ih]

/-- C6.  Batch-level failure is all-or-nothing: when the flush of a full
batch hits an encode or write error (and the cap was not already
reached), the whole batch size is added to `errored`, `inserted` is
unchanged, the store is unchanged by the flush (no partial insertion,
for every store), the batch buffer is discarded without retry, and the
loop continues with the next record. -/
theorem batch_failure_all_or_nothing (cfg : Config)
    (enc : List String → List Vec) (orc : Nat → FlushOutcome)
    (st : LoopState) (s : Store)
    (hfail : orc st.flushes ≠ FlushOutcome.ok)
    (hcap : capReached cfg st = false) :
    (flushFull cfg enc orc st).1.errors
      = st.errors + st.batchRecords.length ∧
    (flushFull cfg enc orc st).1.inserted = st.inserted ∧
    applyEvents s (flushFull cfg enc orc st).1.events
      = applyEvents s st.events ∧
    (flushFull cfg enc orc st).2 = Ctl.cont ∧
    (flushFull cfg enc orc st).1.batchRecords = [] := by
  unfold flushFull
  cases horc : orc st.flushes with
  | ok => exact absurd horc hfail
  | encodeFail =>
    have hc : capReached cfg { st with
        errors := st.errors + st.batchRecords.length,
        flushes := st.flushes + 1, batchRecords := [],
        batchTexts := [] } = false := hcap
    simp [hc, applyEvents]
  | writeFail =>
    have hc : capReached cfg { st with
        events := st.events ++ [Ev.encode st.batchTexts.length],
        errors := st.errors + st.batchRecords.length,
        flushes := st.flushes + 1, batchRecords := [],
        batchTexts := [] } = false := hcap
    simp [hc, applyEvents_append, applyEvents, applyEv]

theorem batch_failure_all_or_nothing_witness :
    (flushFull ⟨2, 3, 0⟩ demoEnc orcWriteFail demoCapState).1.errors
      = demoCapState.errors + demoCapState.batchRecords.length ∧
    (flushFull ⟨2, 3, 0⟩ demoEnc orcWriteFail demoCapState).1.inserted
      = demoCapState.inserted ∧
    applyEvents [] (flushFull ⟨2, 3, 0⟩ demoEnc orcWriteFail
        demoCapState).1.events
      = applyEvents [] demoCapState.events ∧
    (flushFull ⟨2, 3, 0⟩ demoEnc orcWriteFail demoCapState).2 = Ctl.cont ∧
    (flushFull ⟨2, 3, 0⟩ demoEnc orcWriteFail
        demoCapState).1.batchRecords = [] :=
  batch_failure_all_or_nothing ⟨2, 3, 0⟩ demoEnc orcWriteFail demoCapState
    [] (by decide) (by rfl)

/-- C7, counterexample.  A flat authors entry carrying only a `key`
field contributes nothing: `author_entry.get("author", EMPTY_DICT)`
yields a dict, so the `elif "key" in author_entry` branch is unreachable
for it, and the empty default key fails the "/authors/" filter — the
claim predicts the raw key is appended. -/
theorem flat_author_key_entry_yields_nothing :
    extract_authors
        [("authors", Json.arr [Json.obj [("key", Json.str "/authors/OL1A")]])]
      = [] ∧
    extract_authors
        [("authors", Json.arr [Json.obj [("key", Json.str "/authors/OL1A")]])]
      ≠ ["/authors/OL1A"] := by
  exact ⟨rfl, by decide⟩

/-- C7, amended.  Author extraction per entry shape: a nested entry with
`author.key` a string contributes that key only when it starts with
"/authors/", otherwise nothing; a flat entry with only a `key` field
contributes nothing (the nested branch captures it with an empty
default); the flat branch fires only when an `author` field is present
and is not a dict, and then appends the raw `key` as-is; non-dict
entries contribute nothing. -/
theorem author_extraction_filtered_branches (k : String) :
    extract_authors
        [("authors", Json.arr [Json.obj [("author", Json.obj [("key", Json.str k)])]])]
      = (if pyStartsWith k "/authors/" then [k] else []) ∧
    extract_authors [("authors", Json.arr [Json.obj [("key", Json.str k)]])]
      = [] ∧
    extract_authors
        [("authors", Json.arr [Json.obj [("author", Json.str "x"), ("key", Json.str k)]])]
      = [k] ∧
    extract_authors [("authors", Json.arr [Json.str k])] = [] := by
  refine ⟨?_, rfl, rfl, rfl⟩
  simp [extract_authors, authorsOfEntry, objGetD, objGet]

/-- C8.  The embedding text builder equals the specified pure formula
trim(title + ". " + join(subjects[:20], " ")), and it is deterministic
in exactly the title and subjects fields: two records with identical
`title` and `subjects` values produce identical derived search text. -/
theorem embedding_text_formula_deterministic (w w2 : JObj) :
    prepare_embedding_text w = embeddingTextSpec w ∧
    (objGet w "title" = objGet w2 "title" →
      objGet w "subjects" = objGet w2 "subjects" →
      prepare_embedding_text w = prepare_embedding_text w2) := by
  refine ⟨rfl, fun ht hs => ?_⟩
  unfold prepare_embedding_text getFieldStr getSubjects objGetD
  rw [ht, hs]

theorem embedding_text_formula_deterministic_witness :
    prepare_embedding_text
        [("title", Json.str "T"), ("subjects", Json.arr [Json.str "a"]),
         ("key", Json.str "/works/OL1W")]
      = embeddingTextSpec
        [("title", Json.str "T"), ("subjects", Json.arr [Json.str "a"]),
         ("key", Json.str "/works/OL1W")] ∧
    prepare_embedding_text
        [("title", Json.str "T"), ("subjects", Json.arr [Json.str "a"]),
         ("key", Json.str "/works/OL1W")]
      = prepare_embedding_text
        [("title", Json.str "T"), ("subjects", Json.arr [Json.str "a"]),
         ("key", Json.str "/works/OL2W")] :=
  ⟨(embedding_text_formula_deterministic
      [("title", Json.str "T"), ("subjects", Json.arr [Json.str "a"]),
       ("key", Json.str "/works/OL1W")]
      [("title", Json.str "T"), ("subjects", Json.arr [Json.str "a"]),
       ("key", Json.str "/works/OL2W")]).1,
   (embedding_text_formula_deterministic
      [("title", Json.str "T"), ("subjects", Json.arr [Json.str "a"]),
       ("key", Json.str "/works/OL1W")]
      [("title", Json.str "T"), ("subjects", Json.arr [Json.str "a"]),
       ("key", Json.str "/works/OL2W")]).2 rfl rfl⟩

/-- C10.  When the cap is enabled and is first reached right after a
full batch writes successfully, the loop breaks (line 296) before the
batch buffer is reset, so the end-of-stream remainder flush encodes and
writes that same batch a second time: `inserted` grows by twice the
batch size, while the store after the whole trace equals the store after
a single write of the batch — in particular the store gains at most the
batch size many rows, so the reported count exceeds the rows actually
added. -/
theorem cap_break_reflushes_last_batch (cfg : Config)
    (enc : List String → List Vec) (orc : Nat → FlushOutcome)
    (st : LoopState) (s : Store)
    (hok : orc st.flushes = FlushOutcome.ok)
    (hok2 : orc (st.flushes + 1) = FlushOutcome.ok)
    (hne : st.batchRecords.isEmpty = false)
    (hcap : 0 < cfg.maxRecords)
    (hreach : cfg.maxRecords ≤ st.inserted + st.batchRecords.length) :
    (flushFull cfg enc orc st).2 = Ctl.brk ∧
    (flushFull cfg enc orc st).1.batchRecords = st.batchRecords ∧
    (finishRun enc orc (flushFull cfg enc orc st).1).inserted
      = st.inserted + 2 * st.batchRecords.length ∧
    applyEvents s (finishRun enc orc (flushFull cfg enc orc st).1).events
      = insertRows (applyEvents s st.events)
          (zipRows st.batchRecords (enc st.batchTexts)) ∧
    (applyEvents s
        (finishRun enc orc (flushFull cfg enc orc st).1).events).length
      ≤ (applyEvents s st.events).length + st.batchRecords.length := by
  have hflush : flushFull cfg enc orc st =
      ({ st with
          events := st.events ++ [Ev.encode st.batchTexts.length,
            Ev.write (zipRows st.batchRecords (enc st.batchTexts))],
          inserted := st.inserted + st.batchRecords.length,
          flushes := st.flushes + 1 }, Ctl.brk) := by
    unfold flushFull
    rw [hok]
    have hc : capReached cfg { st with
        events := st.events ++ [Ev.encode st.batchTexts.length,
          Ev.write (zipRows st.batchRecords (enc st.batchTexts))],
        inserted := st.inserted + st.batchRecords.length,
        flushes := st.flushes + 1 } = true := by
      simp [capReached, hcap, hreach]
    simp [hc]
  rw [hflush]
  refine ⟨rfl, rfl, ?_, ?_, ?_⟩
  · unfold finishRun
    simp [hne, hok2, List.length_append]
    omega
  · unfold finishRun
    simp only [hne, Bool.false_eq_true, if_neg, ite_false, hok2]
    rw [applyEvents_append, applyEvents_append]
    simp [applyEvents, applyEv, insertRows_idem]
  · unfold finishRun
    simp only [hne, Bool.false_eq_true, if_neg, ite_false, hok2]
    rw [applyEvents_append, applyEvents_append]
    simp only [applyEvents, applyEv]
    calc (insertRows (insertRows (applyEvents s st.events)
          (zipRows st.batchRecords (enc st.batchTexts)))
          (zipRows st.batchRecords (enc st.batchTexts))).length
        = (insertRows (applyEvents s st.events)
            (zipRows st.batchRecords (enc st.batchTexts))).length := by
          rw [insertRows_idem]
      _ ≤ (applyEvents s st.events).length
            + (zipRows st.batchRecords (enc st.batchTexts)).length :=
          insertRows_length_le _ _
      _ ≤ (applyEvents s st.events).length + st.batchRecords.length := by
          rw [zipRows_length]
          omega

theorem cap_break_reflushes_last_batch_witness :
    (flushFull ⟨2, 3, 2⟩ demoEnc orcOk demoCapState).2 = Ctl.brk ∧
    (flushFull ⟨2, 3, 2⟩ demoEnc orcOk demoCapState).1.batchRecords
      = demoCapState.batchRecords ∧
    (finishRun demoEnc orcOk
        (flushFull ⟨2, 3, 2⟩ demoEnc orcOk demoCapState).1).inserted
      = demoCapState.inserted + 2 * demoCapState.batchRecords.length ∧
    applyEvents []
        (finishRun demoEnc orcOk
          (flushFull ⟨2, 3, 2⟩ demoEnc orcOk demoCapState).1).events
      = insertRows (applyEvents [] demoCapState.events)
          (zipRows demoCapState.batchRecords
            (demoEnc demoCapState.batchTexts)) ∧
    (applyEvents []
        (finishRun demoEnc orcOk
          (flushFull ⟨2, 3, 2⟩ demoEnc orcOk demoCapState).1).events).length
      ≤ (applyEvents [] demoCapState.events).length
          + demoCapState.batchRecords.length :=
  cap_break_reflushes_last_batch ⟨2, 3, 2⟩ demoEnc orcOk demoCapState []
    (by rfl) (by rfl) (by rfl) (by decide) (by decide)
